import Mathlib

/-!
Shallow embedding of `streamcorpus_opensextant/tagger.py`.

The module provides a pipeline stage (`OpenSextantTagger.process_item`) that
posts a document's `clean_visible` text to a remote service and aligns the
returned character-offset entity records onto the tokens previously produced
by the `nltk_tokenizer` stage (`annotate_sentences`), consulting the static
`entity_types` table.

Modelling conventions:
- Python dicts with string keys become association lists; `d.get(k)` is
  `List.lookup`, `d[k] = v` is `dictSet`.
- JSON records with possibly-missing keys carry `Option` fields; a direct
  subscript access `d['k']` on a missing key is the error `PyErr.keyError`.
- In-place mutation of tokens is modelled by returning the updated sentence
  structure; `logger` calls become an explicit list of `LogEvent`s (only the
  events emitted inside the alignment loop are modelled).
- The remote HTTP call and JSON parse are abstracted: the parsed result is an
  explicit argument of `process_item`.
-/

namespace OpenSextant

/-- Entity-kind enum (the constructors of `streamcorpus.EntityType` used by
the `entity_types` table). -/
inductive EntityType
  | PER
  | ORG
  | LOC
  | FAC
  | EVENT
deriving DecidableEq

/-- Mention-kind enum (the constructors of `streamcorpus.MentionType` used by
the `entity_types` table). -/
inductive MentionType
  | NAME
  | NOM
deriving DecidableEq

/-- A `streamcorpus.Token`: immutable identity (literal text plus the BYTES
offset span, `offsets[OffsetType.BYTES].first` and `.length`) and the four
mutable fields written by the aligner. -/
structure Token where
  token : String
  first : Nat
  length : Nat
  entity_type : Option EntityType := none
  mention_type : Option MentionType := none
  mention_id : Option Nat := none
  equiv_id : Option Nat := none
deriving DecidableEq

/-- The `features` sub-object of a remote annotation record; both keys may be
absent from the JSON. -/
structure Features where
  isEntity : Option Bool := none
  hierarchy : Option String := none
deriving DecidableEq

/-- One record of the remote service's `annoList`; every field may be absent
from the JSON (`none`). `stop?` embeds the `end` key. -/
structure Anno where
  start? : Option Nat := none
  stop? : Option Nat := none
  matchText? : Option String := none
  features? : Option Features := none
deriving DecidableEq

/-- The parsed JSON result object; `annoList?` is `none` when the key is
absent (`result.get('annoList', [])` then yields the empty list). -/
structure TagResult where
  annoList? : Option (List Anno) := none
deriving DecidableEq

/-- Python exceptions that can escape `annotate_sentences`: subscripting a
dict on a missing key. -/
inductive PyErr
  | keyError (key : String)
deriving DecidableEq

/-- The `logger` events emitted inside the alignment loop of
`annotate_sentences`: the `logger.debug` skip message for a non-entity
record, and the `logger.critical` alignment-failure message carrying the
context slice `clean_visible.decode('utf8')[start-3:end+3]` and the record's
`matchText`. -/
inductive LogEvent
  | debugSkip (anno : Anno)
  | criticalMismatch (context : String) (matchText : String)
deriving DecidableEq

/-- The static `entity_types` table of `tagger.py`, an association list in
source order: a key maps either to `none` (the Python entries that are
explicitly `None`) or to an (entity-kind, mention-kind) pair. -/
def entity_types : List (String × Option (EntityType × MentionType)) :=
  [ ("Action", some (.EVENT, .NOM)),
    ("Attribute.attribute.measurableCharacteristic", none),
    ("Attribute.weight", none),
    ("Geo.area", some (.LOC, .NOM)),
    ("Geo.distance", some (.LOC, .NOM)),
    ("Geo.weather", some (.LOC, .NOM)),
    ("Geo.featureType.AdminRegion", some (.LOC, .NAME)),
    ("Geo.featureType.Area", some (.LOC, .NAME)),
    ("Geo.featureType.Hydro", some (.LOC, .NAME)),
    ("Geo.featureType.Hypso", some (.LOC, .NAME)),
    ("Geo.featureType.Misc", some (.LOC, .NAME)),
    ("Geo.featureType.PopulatedPlace", some (.LOC, .NAME)),
    ("Geo.featureType.Street", some (.LOC, .NAME)),
    ("Geo.featureType.Undersea", some (.LOC, .NAME)),
    ("Geo.featureType.Vegetation", some (.LOC, .NAME)),
    ("Geo.place.geocoordinate", some (.LOC, .NAME)),
    ("Geo.place.namedPlace", some (.LOC, .NAME)),
    ("Geo.featureType.SpotFeature", some (.FAC, .NAME)),
    ("Geo.facilityComponents", some (.FAC, .NAME)),
    ("Idea", none),
    ("Information", none),
    ("Object", none),
    ("Organization", some (.ORG, .NAME)),
    ("Person", some (.PER, .NAME)),
    ("Person.attitude.emotion", none),
    ("Person.attitude.emotion.negativeEmotion", none),
    ("Person.attitude.emotion.positiveEmotion", none),
    ("Person.bodyPart", none),
    ("Person.ethnicity", none),
    ("Person.health", none),
    ("Person.health.disease", none),
    ("Person.health.injury", none),
    ("Person.jobOrRole", none),
    ("Person.language", none),
    ("Person.name.personName", some (.PER, .NAME)),
    ("Person.name.title.corporateTitle", some (.PER, .NOM)),
    ("Person.name.title.governmentTitle", some (.PER, .NOM)),
    ("Person.name.title.hereditaryTitle", some (.PER, .NOM)),
    ("Person.name.title.militaryTitle", some (.PER, .NOM)),
    ("Person.name.title.personalTitle", some (.PER, .NOM)),
    ("Person.name.title.religiousTitle", some (.PER, .NOM)),
    ("Person.relative", none),
    ("Substance", none),
    ("Time", none) ]

/-- Truthiness of `entity_types.get(key)` in Python: the test passes exactly
when the key is present and its value is a pair (an explicit `None` value is
falsy, the same as an absent key), and then `entity_types[key]` is that
pair. -/
def entity_types_truthy (key : String) : Option (EntityType × MentionType) :=
  match entity_types.lookup key with
  | some (some pair) => some pair
  | _ => none

/-- `fhierarchy.split('.')[0]`: the characters before the first dot (the
whole string when it has no dot). -/
def firstSegment (s : String) : String :=
  (s.data.takeWhile (fun c => c ≠ '.')).asString

/-- The type resolution performed in the token loop of `annotate_sentences`:
`if entity_types.get(fhierarchy): ... elif entity_types.get(fh_parts[0]):
... else: None, None`. -/
def resolve_types (fhierarchy : String) : Option (EntityType × MentionType) :=
  match entity_types_truthy fhierarchy with
  | some pair => some pair
  | none => entity_types_truthy (firstSegment fhierarchy)

/-- Python normalization of one slice bound against a sequence of length
`n`: a negative index counts from the end, and bounds clamp into `[0, n]`. -/
def pyIndex (n : Nat) (i : Int) : Nat :=
  if i < 0 then (max 0 ((n : Int) + i)).toNat else min i.toNat n

/-- Python slice `s[a:b]` with arbitrary integer bounds. -/
def pySlice (s : List Char) (a b : Int) : List Char :=
  (s.drop (pyIndex s.length a)).take (pyIndex s.length b - pyIndex s.length a)

/-- Python slice `s[a:b]` with non-negative bounds. -/
def pySliceNat (s : List Char) (a b : Nat) : List Char :=
  (s.drop a).take (b - a)

/-- `anno.get('features', {}).get('isEntity')` is truthy: a missing
`features` object yields `{}`, a missing or false `isEntity` is falsy. -/
def isEntityTruthy (anno : Anno) : Bool :=
  match anno.features? with
  | none => false
  | some f => f.isEntity.getD false

/-- Modelled from the spec: membership in the range query
`toks.find_range(start, end)` of the `sortedcollection` dependency, whose
source is not part of this repository. The spec describes the query as
returning the tokens "whose span intersects [start, end)"; a token's span is
`[first, first + length)` in bytes. -/
def find_range_mem (start stop : Nat) (tok : Token) : Bool :=
  decide (max start tok.first < min stop (tok.first + tok.length))

/-- The in-place assignment performed on one token that the aligner matched:
`tok.entity_type = e_type; tok.mention_type = m_type;
tok.mention_id = mention_id; tok.equiv_id = mention_id`. -/
def applyAnno (e : EntityType) (m : MentionType) (mid : Nat) (tok : Token) : Token :=
  { tok with entity_type := some e, mention_type := some m,
             mention_id := some mid, equiv_id := some mid }

/-- Body of the `for tok in toks.find_range(start, end)` loop for one token:
read `anno['features']['hierarchy']` (a `KeyError` when absent), resolve it
through `entity_types`, and update the token when the resolution is not
`None`. Tokens outside the range are untouched. -/
def annotateToken (anno : Anno) (start stop mid : Nat) (tok : Token) :
    Except PyErr Token :=
  if find_range_mem start stop tok then
    match anno.features? with
    | none => .error (.keyError "features")
    | some f =>
      match f.hierarchy with
      | none => .error (.keyError "hierarchy")
      | some h =>
        match resolve_types h with
        | some pair => .ok (applyAnno pair.1 pair.2 mid tok)
        | none => .ok tok
  else
    .ok tok

/-- The token loop over one sentence's tokens. Iterating every token and
testing `find_range_mem` is equivalent to iterating only the tokens the
sorted range query yields: each update is per-token and independent. -/
def annotateToks (anno : Anno) (start stop mid : Nat) :
    List Token → Except PyErr (List Token)
  | [] => .ok []
  | t :: ts =>
    match annotateToken anno start stop mid t with
    | .error e => .error e
    | .ok t' =>
      match annotateToks anno start stop mid ts with
      | .error e => .error e
      | .ok ts' => .ok (t' :: ts')

/-- The token loop over the whole flattened document (sentence structure is
preserved because tokens are mutated in place). -/
def annotateSents (anno : Anno) (start stop mid : Nat) :
    List (List Token) → Except PyErr (List (List Token))
  | [] => .ok []
  | s :: ss =>
    match annotateToks anno start stop mid s with
    | .error e => .error e
    | .ok s' =>
      match annotateSents anno start stop mid ss with
      | .error e => .error e
      | .ok ss' => .ok (s' :: ss')

/-- One iteration of the `for anno in result.get('annoList', [])` loop:
skip (with a debug log) when `isEntity` is falsy; read `start`, `end` and
`matchText` (a `KeyError` when absent); emit the critical alignment-failure
log when the document slice differs from `matchText`; run the token loop;
then `mention_id += 1`. -/
def stepAnno (text : List Char) (sents : List (List Token)) (mid : Nat)
    (anno : Anno) :
    Except PyErr (List (List Token) × Nat × List LogEvent) :=
  if isEntityTruthy anno then
    match anno.start? with
    | none => .error (.keyError "start")
    | some start =>
      match anno.stop? with
      | none => .error (.keyError "end")
      | some stop =>
        match anno.matchText? with
        | none => .error (.keyError "matchText")
        | some mt =>
          let logs : List LogEvent :=
            if (pySliceNat text start stop).asString = mt then []
            else [.criticalMismatch
                   (pySlice text ((start : Int) - 3) ((stop : Int) + 3)).asString
                   mt]
          match annotateSents anno start stop mid sents with
          | .error e => .error e
          | .ok sents' => .ok (sents', mid + 1, logs)
  else
    .ok (sents, mid, [.debugSkip anno])

/-- The annotation loop of `annotate_sentences`, threading the sentence
state and the per-document `mention_id` counter (initially 0) and
accumulating log events. -/
def alignLoop (text : List Char) :
    List Anno → List (List Token) → Nat →
    Except PyErr (List (List Token) × Nat × List LogEvent)
  | [], sents, mid => .ok (sents, mid, [])
  | anno :: rest, sents, mid =>
    match stepAnno text sents mid anno with
    | .error e => .error e
    | .ok (sents', mid', logs) =>
      match alignLoop text rest sents' mid' with
      | .error e => .error e
      | .ok (sents'', mid'', logs') => .ok (sents'', mid'', logs ++ logs')

/-- The net effect of `annotate_sentences(si, result)` on the sentence list
`si.body.sentences['nltk_tokenizer']` (tokens are mutated in place), given
the decoded `clean_visible` text. The Python function itself falls off the
end and returns `None`; that return value is modelled in `process_item`. -/
def annotate_sentences (text : List Char) (sents : List (List Token))
    (result : TagResult) :
    Except PyErr (List (List Token) × List LogEvent) :=
  match alignLoop text (result.annoList?.getD []) sents 0 with
  | .error e => .error e
  | .ok (sents', _, logs) => .ok (sents', logs)

/-- A `streamcorpus.Tagging` as built by `OpenSextantTagger.make_tagging`. -/
structure Tagging where
  tagger_id : String
  tagger_version : String
  generation_time : Nat
deriving DecidableEq

/-- `make_tagging`: a fixed tagger id and version plus the generation
timestamp. -/
def make_tagging (time : Nat) : Tagging :=
  { tagger_id := "opensextant", tagger_version := "2.1",
    generation_time := time }

/-- A sentence list as stored in `body.sentences[tagger_id]`; the value may
be Python `None` (which is what storing the return value of
`annotate_sentences` produces). -/
abbrev SentencesValue := Option (List (List Token))

/-- The parts of `si.body` that `process_item` reads and writes. An empty
`clean_visible` models a falsy one. -/
structure Body where
  clean_visible : String
  taggings : List (String × Tagging)
  sentences : List (String × SentencesValue)
deriving DecidableEq

/-- A stream item; `body` is `none` when `si.body` is Python `None`. -/
structure StreamItem where
  body : Option Body
deriving DecidableEq

/-- Python dict assignment `d[k] = v` on an association list: replace the
existing binding or append a new one. -/
def dictSet {α : Type} (d : List (String × α)) (k : String) (v : α) :
    List (String × α) :=
  if d.any (fun p => p.1 = k) then
    d.map (fun p => if p.1 = k then (k, v) else p)
  else
    d ++ [(k, v)]

/-- `OpenSextantTagger.process_item`, with the remote call and JSON parse
abstracted into the `result` argument and the wall clock into `time`.
When `si.body` and `si.body.clean_visible` are truthy it stores
`make_tagging` under the `opensextant` key of `taggings`, runs
`annotate_sentences` over the `nltk_tokenizer` sentences (mutating their
tokens in place), and stores that call's `None` return value under the
`opensextant` key of `sentences`; otherwise it returns `si` unchanged. -/
def process_item (si : StreamItem) (result : TagResult) (time : Nat) :
    Except PyErr StreamItem :=
  match si.body with
  | none => .ok si
  | some body =>
    if body.clean_visible = "" then .ok si
    else
      match body.sentences.lookup "nltk_tokenizer" with
      | none => .error (.keyError "nltk_tokenizer")
      | some none => .error (.keyError "nltk_tokenizer")
      | some (some nltkSents) =>
        match annotate_sentences body.clean_visible.data nltkSents result with
        | .error e => .error e
        | .ok (newSents, _) =>
          .ok { si with body := some { body with
                  taggings := dictSet body.taggings "opensextant"
                                (make_tagging time),
                  sentences := dictSet
                    (dictSet body.sentences "nltk_tokenizer" (some newSents))
                    "opensextant" none } }

/-! ### Derived per-token semantics

The loop body of `annotate_sentences` updates each token independently of
every other token, so the net effect of the whole loop on a single token can
be described by a fold; the lemmas below prove that the loop refines this
per-token description. -/

/-- The effect of one annotation-loop iteration on one token (the successful
branch of `annotateToken`, applied when the record passed the `isEntity`
gate and its `start`/`end` fields were read). -/
def tokStep (mid : Nat) (anno : Anno) (tok : Token) : Token :=
  if isEntityTruthy anno then
    match anno.start?, anno.stop?, anno.features? with
    | some start, some stop, some f =>
      if find_range_mem start stop tok then
        match f.hierarchy with
        | some h =>
          match resolve_types h with
          | some pair => applyAnno pair.1 pair.2 mid tok
          | none => tok
        | none => tok
      else tok
    | _, _, _ => tok
  else tok

/-- The effect of the whole annotation loop on one token, threading the
per-document mention counter. -/
def tokFold : List Anno → Nat → Token → Token
  | [], _, tok => tok
  | anno :: rest, mid, tok =>
    tokFold rest (mid + if isEntityTruthy anno then 1 else 0)
      (tokStep mid anno tok)

/-- A token's immutable identity: literal text and byte span. -/
def tokKey (tok : Token) : String × Nat × Nat :=
  (tok.token, tok.first, tok.length)

/-- All four mutable annotation fields of a token are unset. -/
def isUnset (tok : Token) : Bool :=
  tok.entity_type = none && tok.mention_type = none &&
  tok.mention_id = none && tok.equiv_id = none

/-- The type resolution an annotation record would produce for the tokens in
its range: `resolve_types` of `features.hierarchy`, `none` when the record
has no features object or no hierarchy. -/
def annoResolve (anno : Anno) : Option (EntityType × MentionType) :=
  match anno.features? with
  | some f =>
    match f.hierarchy with
    | some h => resolve_types h
    | none => none
  | none => none

/-- The annotation record writes this token's fields: it passed the
`isEntity` gate, its span fields are present, the token lies in the range
query, and its category resolves to a pair. -/
def effectiveOn (anno : Anno) (tok : Token) : Bool :=
  isEntityTruthy anno &&
  (match anno.start?, anno.stop? with
   | some start, some stop =>
     find_range_mem start stop tok && (annoResolve anno).isSome
   | _, _ => false)

/-- How many records of the list pass the `isEntity` gate: each of them
advances the per-document mention counter by one. -/
def entityCount (annos : List Anno) : Nat :=
  annos.countP (fun anno => isEntityTruthy anno)

/-- The log events one annotation-loop iteration emits. -/
def stepLogs (text : List Char) (anno : Anno) : List LogEvent :=
  if isEntityTruthy anno then
    match anno.start?, anno.stop?, anno.matchText? with
    | some start, some stop, some mt =>
      if (pySliceNat text start stop).asString = mt then []
      else [.criticalMismatch
             (pySlice text ((start : Int) - 3) ((stop : Int) + 3)).asString mt]
    | _, _, _ => []
  else [.debugSkip anno]

/-- The log events the whole annotation loop emits (they depend only on the
text and the annotation list, never on the tokens). -/
def alignLogs (text : List Char) : List Anno → List LogEvent
  | [] => []
  | anno :: rest => stepLogs text anno ++ alignLogs text rest

/-- The token stored at sentence index `i`, token index `j`. -/
def tokAt (sents : List (List Token)) (i j : Nat) : Option Token :=
  sents[i]?.bind (fun sent => sent[j]?)

/-- Pointwise identity of token keys between two sentence structures. -/
def sentsKeyEq (a b : List (List Token)) : Prop :=
  List.Forall₂ (List.Forall₂ (fun t t' => tokKey t' = tokKey t)) a b

/-! ### Concrete data

Tokens, annotation records and stream items used to evaluate the embedding
on closed inputs; the sentence and the expected per-token outcome are the
first fixture of the repository's `test_tagger.py`
(`'Traveling to Paris, Texas.'`). -/

/-- `'Traveling'`, bytes [0, 9). -/
def tokTraveling : Token := { token := "Traveling", first := 0, length := 9 }

/-- `'to'`, bytes [10, 12). -/
def tokTo : Token := { token := "to", first := 10, length := 2 }

/-- `'Paris,'`, bytes [13, 19). -/
def tokParis : Token := { token := "Paris,", first := 13, length := 6 }

/-- `'Texas.'`, bytes [20, 26). -/
def tokTexas : Token := { token := "Texas.", first := 20, length := 6 }

/-- The decoded document text of the fixture sentence. -/
def parisText : List Char := "Traveling to Paris, Texas.".data

/-- The fixture token structure: one sentence of four tokens. -/
def parisSents : List (List Token) := [[tokTraveling, tokTo, tokParis, tokTexas]]

/-- A populated-place annotation over `'Paris'` at [13, 18). -/
def annoParis : Anno :=
  { start? := some 13, stop? := some 18, matchText? := some "Paris",
    features? := some { isEntity := some true,
                        hierarchy := some "Geo.featureType.PopulatedPlace" } }

/-- A populated-place annotation over `'Texas'` at [20, 25). -/
def annoTexas : Anno :=
  { start? := some 20, stop? := some 25, matchText? := some "Texas",
    features? := some { isEntity := some true,
                        hierarchy := some "Geo.featureType.PopulatedPlace" } }

/-- An entity-flagged annotation whose category `'Object'` resolves to
`None` in the `entity_types` table. -/
def annoObject : Anno :=
  { start? := some 13, stop? := some 18, matchText? := some "Paris",
    features? := some { isEntity := some true, hierarchy := some "Object" } }

/-- An entity-flagged annotation record that lacks the `start` field. -/
def annoNoStart : Anno :=
  { stop? := some 25, matchText? := some "Texas",
    features? := some { isEntity := some true, hierarchy := some "Person" } }

/-- An annotation whose `matchText` disagrees with the document slice at its
offsets. -/
def annoMismatch : Anno :=
  { start? := some 13, stop? := some 18, matchText? := some "Paris!",
    features? := some { isEntity := some true,
                        hierarchy := some "Geo.featureType.PopulatedPlace" } }

/-- An annotation with `isEntity: false` overlapping `'Paris,'`. -/
def annoNotEntity : Anno :=
  { start? := some 13, stop? := some 18, matchText? := some "Paris",
    features? := some { isEntity := some false,
                        hierarchy := some "Geo.featureType.PopulatedPlace" } }

/-- The fixture stream item before tagging: `clean_visible` plus the
`nltk_tokenizer` sentences. -/
def parisItem : StreamItem :=
  { body := some { clean_visible := "Traveling to Paris, Texas.",
                   taggings := [],
                   sentences := [("nltk_tokenizer", some parisSents)] } }

/-- The stream item `process_item` actually produces from `parisItem` for
the result `[annoParis, annoTexas]` at time 42: the annotated sentences sit
under the `nltk_tokenizer` key, while the new `opensextant` key holds the
`None` that `annotate_sentences` returns. -/
def parisItemTagged : StreamItem :=
  { body := some
      { clean_visible := "Traveling to Paris, Texas.",
        taggings := [("opensextant", make_tagging 42)],
        sentences :=
          [("nltk_tokenizer",
            some [[tokTraveling, tokTo, applyAnno .LOC .NAME 0 tokParis,
                   applyAnno .LOC .NAME 1 tokTexas]]),
           ("opensextant", none)] } }

/-- `'AB'`, bytes [0, 2), for the boundary scenarios. -/
def tokAB : Token := { token := "AB", first := 0, length := 2 }

/-- `'CD'`, bytes [3, 5). -/
def tokCD : Token := { token := "CD", first := 3, length := 2 }

/-- `'EF'`, bytes [6, 8). -/
def tokEF : Token := { token := "EF", first := 6, length := 2 }

/-- The decoded text `'AB CD EF'`. -/
def abText : List Char := "AB CD EF".data

/-- An organization annotation whose span [3, 5) exactly matches the span of
`tokCD`. -/
def annoExact : Anno :=
  { start? := some 3, stop? := some 5, matchText? := some "CD",
    features? := some { isEntity := some true,
                        hierarchy := some "Organization" } }

/-- An organization annotation spanning [0, 5), covering both `tokAB` and
`tokCD`. -/
def annoWide : Anno :=
  { start? := some 0, stop? := some 5, matchText? := some "AB CD",
    features? := some { isEntity := some true,
                        hierarchy := some "Organization" } }

/-! ### Token-level lemmas -/

theorem isEntityTruthy_features {anno : Anno} (h : isEntityTruthy anno = true) :
    ∃ f, anno.features? = some f := by
  unfold isEntityTruthy at h
  cases hf : anno.features? with
  | none => rw [hf] at h; cases h
  | some f => exact ⟨f, rfl⟩

theorem tokStep_not_entity {anno : Anno} (h : isEntityTruthy anno = false)
    (mid : Nat) (tok : Token) : tokStep mid anno tok = tok := by
  simp [tokStep, h]

theorem applyAnno_key (e : EntityType) (m : MentionType) (mid : Nat)
    (tok : Token) : tokKey (applyAnno e m mid tok) = tokKey tok := rfl

theorem applyAnno_congr {t₁ t₂ : Token} (h : tokKey t₁ = tokKey t₂)
    (e : EntityType) (m : MentionType) (mid : Nat) :
    applyAnno e m mid t₁ = applyAnno e m mid t₂ := by
  rcases t₁ with ⟨a1, b1, c1, d1, e1, f1, g1⟩
  rcases t₂ with ⟨a2, b2, c2, d2, e2, f2, g2⟩
  simp [tokKey] at h
  simp [applyAnno, h.1, h.2.1, h.2.2]

theorem applyAnno_applyAnno (e e' : EntityType) (m m' : MentionType)
    (k k' : Nat) (tok : Token) :
    applyAnno e' m' k' (applyAnno e m k tok) = applyAnno e' m' k' tok := rfl

theorem find_range_mem_congr {t₁ t₂ : Token} (h : tokKey t₁ = tokKey t₂)
    (s e : Nat) : find_range_mem s e t₁ = find_range_mem s e t₂ := by
  rcases t₁ with ⟨a1, b1, c1, d1, e1, f1, g1⟩
  rcases t₂ with ⟨a2, b2, c2, d2, e2, f2, g2⟩
  simp [tokKey] at h
  simp [find_range_mem, h.2.1, h.2.2]

theorem tokStep_key (mid : Nat) (anno : Anno) (tok : Token) :
    tokKey (tokStep mid anno tok) = tokKey tok := by
  unfold tokStep
  repeat' split
  all_goals rfl

theorem tokFold_key : ∀ (annos : List Anno) (mid : Nat) (tok : Token),
    tokKey (tokFold annos mid tok) = tokKey tok
  | [], _, _ => rfl
  | anno :: rest, mid, tok => by
    rw [tokFold, tokFold_key rest, tokStep_key]

theorem effectiveOn_congr {t₁ t₂ : Token} (h : tokKey t₁ = tokKey t₂)
    (anno : Anno) : effectiveOn anno t₁ = effectiveOn anno t₂ := by
  unfold effectiveOn
  cases anno.start? <;> cases anno.stop? <;>
    simp [find_range_mem_congr h]

theorem effectiveOn_entity {anno : Anno} {tok : Token}
    (h : effectiveOn anno tok = true) : isEntityTruthy anno = true := by
  unfold effectiveOn at h
  exact (Bool.and_eq_true_iff.mp h).1

theorem effectiveOn_resolve {anno : Anno} {tok : Token}
    (h : effectiveOn anno tok = true) :
    ∃ p, annoResolve anno = some p := by
  unfold effectiveOn at h
  rcases Bool.and_eq_true_iff.mp h with ⟨-, h2⟩
  cases hs : anno.start? <;> cases he : anno.stop? <;> rw [hs, he] at h2
  · cases h2
  · cases h2
  · cases h2
  · rcases Bool.and_eq_true_iff.mp h2 with ⟨-, h3⟩
    exact Option.isSome_iff_exists.mp h3

theorem tokStep_untouched {anno : Anno} {tok : Token}
    (h : effectiveOn anno tok = false) (mid : Nat) :
    tokStep mid anno tok = tok := by
  unfold effectiveOn at h
  unfold tokStep
  cases hE : isEntityTruthy anno with
  | false => simp
  | true =>
    rw [hE] at h
    simp only [Bool.true_and] at h
    cases hs : anno.start? with
    | none => simp
    | some s =>
      cases he : anno.stop? with
      | none => simp
      | some e =>
        rw [hs, he] at h
        cases hf : anno.features? with
        | none => simp
        | some f =>
          simp only [Bool.and_eq_false_iff] at h
          rcases h with h | h
          · simp [h]
          · cases hR : find_range_mem s e tok with
            | false => simp [hR]
            | true =>
              cases hh : f.hierarchy with
              | none => simp [hh]
              | some hier =>
                cases hres : resolve_types hier with
                | none => simp [hh, hres]
                | some pair =>
                  exfalso
                  have : annoResolve anno = some pair := by
                    simp [annoResolve, hf, hh, hres]
                  rw [this] at h
                  cases h

theorem tokStep_effective {anno : Anno} {tok : Token}
    {e : EntityType} {m : MentionType}
    (h : effectiveOn anno tok = true) (hr : annoResolve anno = some (e, m))
    (mid : Nat) : tokStep mid anno tok = applyAnno e m mid tok := by
  have hE := effectiveOn_entity h
  unfold effectiveOn at h
  rw [hE, Bool.true_and] at h
  cases hs : anno.start? with
  | none => rw [hs] at h; cases h
  | some s =>
    cases he : anno.stop? with
    | none => rw [hs, he] at h; cases h
    | some e' =>
      rw [hs, he] at h
      rcases Bool.and_eq_true_iff.mp h with ⟨hR, -⟩
      unfold annoResolve at hr
      cases hf : anno.features? with
      | none => rw [hf] at hr; cases hr
      | some f =>
        simp only [hf] at hr
        cases hh : f.hierarchy with
        | none => simp only [hh] at hr; cases hr
        | some hier =>
          simp only [hh] at hr
          unfold tokStep
          simp [hE, hs, he, hf, hR, hh, hr]

theorem tokFold_congr_key : ∀ (annos : List Anno) (mid : Nat) {t₁ t₂ : Token},
    tokKey t₁ = tokKey t₂ →
    tokFold annos mid t₁ = tokFold annos mid t₂ ∨
      (tokFold annos mid t₁ = t₁ ∧ tokFold annos mid t₂ = t₂)
  | [], _, _, _, _ => Or.inr ⟨rfl, rfl⟩
  | anno :: rest, mid, t₁, t₂, h => by
    cases hEff : effectiveOn anno t₁ with
    | false =>
      have hEff₂ : effectiveOn anno t₂ = false := by
        rw [← effectiveOn_congr h]; exact hEff
      rw [tokFold, tokFold, tokStep_untouched hEff, tokStep_untouched hEff₂]
      exact tokFold_congr_key rest _ h
    | true =>
      obtain ⟨⟨e, m⟩, hr⟩ := effectiveOn_resolve hEff
      have hEff₂ : effectiveOn anno t₂ = true := by
        rw [← effectiveOn_congr h]; exact hEff
      left
      rw [tokFold, tokFold, tokStep_effective hEff hr,
          tokStep_effective hEff₂ hr, applyAnno_congr h]

theorem tokFold_idem (annos : List Anno) (mid : Nat) (tok : Token) :
    tokFold annos mid (tokFold annos mid tok) = tokFold annos mid tok := by
  rcases tokFold_congr_key annos mid (tokFold_key annos mid tok) with h | ⟨h1, h2⟩
  · exact h
  · exact h1

theorem tokFold_untouched : ∀ (annos : List Anno) (mid : Nat) {tok : Token},
    (∀ a ∈ annos, effectiveOn a tok = false) → tokFold annos mid tok = tok
  | [], _, _, _ => rfl
  | anno :: rest, mid, tok, h => by
    rw [tokFold, tokStep_untouched (h anno (List.mem_cons_self _ _))]
    exact tokFold_untouched rest _ (fun a ha => h a (List.mem_cons_of_mem _ ha))

theorem tokFold_shape : ∀ (annos : List Anno) (mid : Nat) (tok : Token),
    tokFold annos mid tok = tok ∨
      ∃ e m k, tokFold annos mid tok = applyAnno e m k tok
  | [], _, _ => Or.inl rfl
  | anno :: rest, mid, tok => by
    cases hEff : effectiveOn anno tok with
    | false =>
      rw [tokFold, tokStep_untouched hEff]
      exact tokFold_shape rest _ tok
    | true =>
      obtain ⟨⟨e, m⟩, hr⟩ := effectiveOn_resolve hEff
      rw [tokFold, tokStep_effective hEff hr]
      rcases tokFold_shape rest _ (applyAnno e m mid tok) with h | ⟨e', m', k', h⟩
      · exact Or.inr ⟨e, m, mid, h⟩
      · exact Or.inr ⟨e', m', k', by rw [h, applyAnno_applyAnno]⟩

theorem entityCount_nil : entityCount [] = 0 := rfl

theorem entityCount_cons (anno : Anno) (rest : List Anno) :
    entityCount (anno :: rest) =
      entityCount rest + if isEntityTruthy anno then 1 else 0 := by
  simp [entityCount, List.countP_cons]

theorem tokFold_unique {e : EntityType} {m : MentionType} :
    ∀ (pre : List Anno) (a0 : Anno) (post : List Anno) (mid : Nat)
      {tok : Token},
      (∀ a ∈ pre, effectiveOn a tok = false) → effectiveOn a0 tok = true →
      annoResolve a0 = some (e, m) → (∀ a ∈ post, effectiveOn a tok = false) →
      tokFold (pre ++ a0 :: post) mid tok =
        applyAnno e m (mid + entityCount pre) tok
  | [], a0, post, mid, tok, _, h0, hr, hpost => by
    rw [List.nil_append, tokFold, tokStep_effective h0 hr,
        effectiveOn_entity h0]
    rw [tokFold_untouched post _ (fun a ha => by
      rw [effectiveOn_congr (applyAnno_key e m mid tok)]; exact hpost a ha)]
    simp [entityCount_nil]
  | a :: pre', a0, post, mid, tok, hpre, h0, hr, hpost => by
    rw [List.cons_append, tokFold,
        tokStep_untouched (hpre a (List.mem_cons_self _ _))]
    rw [tokFold_unique pre' a0 post _ (fun b hb => hpre b (List.mem_cons_of_mem _ hb))
        h0 hr hpost]
    rw [entityCount_cons]
    cases hI : isEntityTruthy a <;> simp [Nat.add_assoc, Nat.add_comm]

/-! ### Loop characterization lemmas -/

theorem annotateToken_ok {anno : Anno} {s e mid : Nat} {tok t' : Token}
    (hE : isEntityTruthy anno = true) (hs : anno.start? = some s)
    (he : anno.stop? = some e)
    (h : annotateToken anno s e mid tok = .ok t') :
    t' = tokStep mid anno tok := by
  obtain ⟨f, hf⟩ := isEntityTruthy_features hE
  have hts : tokStep mid anno tok =
      (if find_range_mem s e tok then
        match f.hierarchy with
        | some hier =>
          match resolve_types hier with
          | some pair => applyAnno pair.1 pair.2 mid tok
          | none => tok
        | none => tok
      else tok) := by
    unfold tokStep
    rw [hE]
    simp only [hs, he, hf, if_true]
  rw [hts]
  unfold annotateToken at h
  simp only [hf] at h
  cases hR : find_range_mem s e tok with
  | false =>
    rw [hR] at h
    simp only [Bool.false_eq_true, if_false] at h ⊢
    cases h
    rfl
  | true =>
    rw [hR] at h
    simp only [if_true] at h ⊢
    cases hh : f.hierarchy with
    | none => rw [hh] at h; cases h
    | some hier =>
      simp only [hh] at h ⊢
      cases hres : resolve_types hier with
      | none => simp only [hres] at h ⊢; cases h; rfl
      | some pair => simp only [hres] at h ⊢; cases h; rfl

theorem annotateToken_eq {anno : Anno} {s e : Nat} {f : Features}
    {hier : String} (hE : isEntityTruthy anno = true)
    (hs : anno.start? = some s) (he : anno.stop? = some e)
    (hf : anno.features? = some f) (hh : f.hierarchy = some hier)
    (mid : Nat) (tok : Token) :
    annotateToken anno s e mid tok = .ok (tokStep mid anno tok) := by
  unfold annotateToken tokStep
  rw [hE, hs, he]
  simp only [hf, hh, if_true]
  cases hR : find_range_mem s e tok with
  | false => rfl
  | true => cases hres : resolve_types hier <;> rfl

theorem annotateToks_ok {anno : Anno} {s e mid : Nat}
    (hE : isEntityTruthy anno = true) (hs : anno.start? = some s)
    (he : anno.stop? = some e) :
    ∀ {ts ts' : List Token}, annotateToks anno s e mid ts = .ok ts' →
      ts' = ts.map (tokStep mid anno)
  | [], ts', h => by
    unfold annotateToks at h
    cases h
    rfl
  | t :: ts, ts', h => by
    unfold annotateToks at h
    cases ht : annotateToken anno s e mid t with
    | error err => rw [ht] at h; cases h
    | ok t' =>
      rw [ht] at h
      cases hts : annotateToks anno s e mid ts with
      | error err => rw [hts] at h; cases h
      | ok us =>
        rw [hts] at h
        cases h
        rw [List.map_cons, annotateToken_ok hE hs he ht,
            annotateToks_ok hE hs he hts]

theorem annotateToks_eq {anno : Anno} {s e : Nat} {f : Features}
    {hier : String} (hE : isEntityTruthy anno = true)
    (hs : anno.start? = some s) (he : anno.stop? = some e)
    (hf : anno.features? = some f) (hh : f.hierarchy = some hier)
    (mid : Nat) : ∀ ts : List Token,
    annotateToks anno s e mid ts = .ok (ts.map (tokStep mid anno))
  | [] => rfl
  | t :: ts => by
    unfold annotateToks
    rw [annotateToken_eq hE hs he hf hh, annotateToks_eq hE hs he hf hh mid ts]
    rfl

theorem annotateSents_ok {anno : Anno} {s e mid : Nat}
    (hE : isEntityTruthy anno = true) (hs : anno.start? = some s)
    (he : anno.stop? = some e) :
    ∀ {ss ss' : List (List Token)}, annotateSents anno s e mid ss = .ok ss' →
      ss' = ss.map (List.map (tokStep mid anno))
  | [], ss', h => by
    unfold annotateSents at h
    cases h
    rfl
  | sent :: ss, ss', h => by
    unfold annotateSents at h
    cases hsent : annotateToks anno s e mid sent with
    | error err => rw [hsent] at h; cases h
    | ok sent' =>
      rw [hsent] at h
      cases hss : annotateSents anno s e mid ss with
      | error err => rw [hss] at h; cases h
      | ok us =>
        rw [hss] at h
        cases h
        rw [List.map_cons, annotateToks_ok hE hs he hsent,
            annotateSents_ok hE hs he hss]

theorem annotateSents_eq {anno : Anno} {s e : Nat} {f : Features}
    {hier : String} (hE : isEntityTruthy anno = true)
    (hs : anno.start? = some s) (he : anno.stop? = some e)
    (hf : anno.features? = some f) (hh : f.hierarchy = some hier)
    (mid : Nat) : ∀ ss : List (List Token),
    annotateSents anno s e mid ss = .ok (ss.map (List.map (tokStep mid anno)))
  | [] => rfl
  | sent :: ss => by
    unfold annotateSents
    rw [annotateToks_eq hE hs he hf hh, annotateSents_eq hE hs he hf hh mid ss]
    rfl

theorem tokStep_id_of_not_entity {anno : Anno}
    (hE : isEntityTruthy anno = false) (mid : Nat) :
    tokStep mid anno = fun tok => tok :=
  funext (fun tok => tokStep_not_entity hE mid tok)

theorem map_toks_comp (F G H : Token → Token) (hFGH : ∀ tok, F (G tok) = H tok) :
    ∀ ts : List Token, List.map F (List.map G ts) = List.map H ts
  | [] => rfl
  | t :: ts => by
    rw [List.map_cons, List.map_cons, List.map_cons, hFGH t,
        map_toks_comp F G H hFGH ts]

theorem map_sents_comp (F G H : Token → Token) (hFGH : ∀ tok, F (G tok) = H tok) :
    ∀ sents : List (List Token),
      List.map (List.map F) (List.map (List.map G) sents) =
        List.map (List.map H) sents
  | [] => rfl
  | sent :: ss => by
    rw [List.map_cons, List.map_cons, List.map_cons,
        map_toks_comp F G H hFGH sent, map_sents_comp F G H hFGH ss]

theorem stepAnno_char {text : List Char} {sents : List (List Token)}
    {mid : Nat} {anno : Anno}
    {out : List (List Token) × Nat × List LogEvent}
    (h : stepAnno text sents mid anno = .ok out) :
    out = (sents.map (List.map (tokStep mid anno)),
           mid + (if isEntityTruthy anno then 1 else 0),
           stepLogs text anno) := by
  unfold stepAnno at h
  unfold stepLogs
  cases hE : isEntityTruthy anno with
  | false =>
    rw [hE] at h
    simp only [Bool.false_eq_true, if_false] at h ⊢
    cases h
    rw [tokStep_id_of_not_entity hE]
    simp
  | true =>
    rw [hE] at h
    simp only [if_true] at h ⊢
    cases hs : anno.start? with
    | none => simp only [hs] at h; cases h
    | some s =>
      simp only [hs] at h
      cases he : anno.stop? with
      | none => simp only [he] at h; cases h
      | some e =>
        simp only [he] at h
        cases hmt : anno.matchText? with
        | none => simp only [hmt] at h; cases h
        | some mt =>
          simp only [hmt] at h
          cases hA : annotateSents anno s e mid sents with
          | error err => simp only [hA] at h; cases h
          | ok sents' =>
            simp only [hA] at h
            cases h
            rw [annotateSents_ok hE hs he hA]

theorem alignLoop_char {text : List Char} :
    ∀ (annos : List Anno) (sents : List (List Token)) (mid : Nat)
      {out : List (List Token) × Nat × List LogEvent},
      alignLoop text annos sents mid = .ok out →
      out = (sents.map (List.map (tokFold annos mid)),
             mid + entityCount annos, alignLogs text annos)
  | [], sents, mid, out, h => by
    unfold alignLoop at h
    cases h
    have : tokFold [] mid = fun tok => tok := funext (fun tok => rfl)
    rw [this]
    simp [entityCount_nil, alignLogs]
  | anno :: rest, sents, mid, out, h => by
    unfold alignLoop at h
    cases hS : stepAnno text sents mid anno with
    | error err => rw [hS] at h; cases h
    | ok trip =>
      obtain ⟨sents', mid', logs⟩ := trip
      simp only [hS] at h
      cases hL : alignLoop text rest sents' mid' with
      | error err => simp only [hL] at h; cases h
      | ok trip' =>
        obtain ⟨sents'', mid'', logs'⟩ := trip'
        simp only [hL] at h
        cases h
        have hstep := stepAnno_char hS
        rw [Prod.mk.injEq, Prod.mk.injEq] at hstep
        obtain ⟨h1, h2, h3⟩ := hstep
        subst h1 h2 h3
        have hrest := alignLoop_char rest _ _ hL
        rw [Prod.mk.injEq, Prod.mk.injEq] at hrest
        obtain ⟨g1, g2, g3⟩ := hrest
        subst g1 g2 g3
        refine congrArg₂ Prod.mk ?_ (congrArg₂ Prod.mk ?_ ?_)
        · exact map_sents_comp _ _ _ (fun tok => rfl) sents
        · rw [entityCount_cons]
          cases isEntityTruthy anno <;> simp [Nat.add_assoc, Nat.add_comm]
        · rfl

theorem annotate_char {text : List Char} {sents sents' : List (List Token)}
    {result : TagResult} {logs : List LogEvent}
    (h : annotate_sentences text sents result = .ok (sents', logs)) :
    sents' = sents.map (List.map (tokFold (result.annoList?.getD []) 0)) ∧
      logs = alignLogs text (result.annoList?.getD []) := by
  unfold annotate_sentences at h
  cases hL : alignLoop text (result.annoList?.getD []) sents 0 with
  | error err => rw [hL] at h; cases h
  | ok trip =>
    rw [hL] at h
    obtain ⟨s', m', lg⟩ := trip
    cases h
    have := alignLoop_char _ _ _ hL
    rw [Prod.mk.injEq, Prod.mk.injEq] at this
    exact ⟨this.1, this.2.2⟩

/-! ### Transfer lemmas: success of the loop depends only on token keys -/

theorem annotateToken_key_of_ok {anno : Anno} {s e mid : Nat} {tok u : Token}
    (h : annotateToken anno s e mid tok = .ok u) : tokKey u = tokKey tok := by
  unfold annotateToken at h
  cases hR : find_range_mem s e tok with
  | false => rw [hR] at h; simp at h; rw [← h]
  | true =>
    rw [hR] at h
    simp only [if_true] at h
    cases hf : anno.features? with
    | none => rw [hf] at h; cases h
    | some f =>
      simp only [hf] at h
      cases hh : f.hierarchy with
      | none => rw [hh] at h; cases h
      | some hier =>
        simp only [hh] at h
        cases hres : resolve_types hier with
        | none => simp only [hres] at h; cases h; rfl
        | some pair => simp only [hres] at h; cases h; exact applyAnno_key _ _ _ _

theorem annotateToken_transfer {anno : Anno} {s e mid : Nat}
    {t₁ t₂ u₁ : Token} (hk : tokKey t₂ = tokKey t₁)
    (h : annotateToken anno s e mid t₁ = .ok u₁) :
    ∃ u₂, annotateToken anno s e mid t₂ = .ok u₂ ∧ tokKey u₂ = tokKey u₁ := by
  unfold annotateToken at h ⊢
  rw [find_range_mem_congr hk]
  cases hR : find_range_mem s e t₁ with
  | false =>
    rw [hR] at h
    simp only [Bool.false_eq_true, if_false] at h ⊢
    cases h
    exact ⟨t₂, rfl, hk⟩
  | true =>
    rw [hR] at h
    simp only [if_true] at h ⊢
    cases hf : anno.features? with
    | none => rw [hf] at h; cases h
    | some f =>
      simp only [hf] at h ⊢
      cases hh : f.hierarchy with
      | none => rw [hh] at h; cases h
      | some hier =>
        simp only [hh] at h ⊢
        cases hres : resolve_types hier with
        | none =>
          simp only [hres] at h ⊢
          cases h
          exact ⟨t₂, rfl, hk⟩
        | some pair =>
          simp only [hres] at h ⊢
          cases h
          refine ⟨applyAnno pair.1 pair.2 mid t₂, rfl, ?_⟩
          rw [applyAnno_key, applyAnno_key, hk]

theorem annotateToks_transfer {anno : Anno} {s e mid : Nat} :
    ∀ {ts₁ ts₂ us₁ : List Token},
      List.Forall₂ (fun t t' => tokKey t' = tokKey t) ts₁ ts₂ →
      annotateToks anno s e mid ts₁ = .ok us₁ →
      ∃ us₂, annotateToks anno s e mid ts₂ = .ok us₂ ∧
        List.Forall₂ (fun t t' => tokKey t' = tokKey t) us₁ us₂ := by
  intro ts₁ ts₂ us₁ hk
  induction hk generalizing us₁ with
  | nil =>
    intro h
    unfold annotateToks at h
    cases h
    exact ⟨[], rfl, List.Forall₂.nil⟩
  | @cons t₁ t₂ ts₁ ts₂ hkey hrest ih =>
    intro h
    unfold annotateToks at h
    cases ht : annotateToken anno s e mid t₁ with
    | error err => rw [ht] at h; cases h
    | ok u₁ =>
      simp only [ht] at h
      cases hts : annotateToks anno s e mid ts₁ with
      | error err => simp only [hts] at h; cases h
      | ok us =>
        simp only [hts] at h
        cases h
        obtain ⟨u₂, hu₂, hu₂k⟩ := annotateToken_transfer hkey ht
        obtain ⟨us₂, hus₂, hus₂k⟩ := ih hts
        refine ⟨u₂ :: us₂, ?_, List.Forall₂.cons hu₂k hus₂k⟩
        unfold annotateToks
        rw [hu₂, hus₂]

theorem annotateSents_transfer {anno : Anno} {s e mid : Nat} :
    ∀ {ss₁ ss₂ us₁ : List (List Token)},
      sentsKeyEq ss₁ ss₂ →
      annotateSents anno s e mid ss₁ = .ok us₁ →
      ∃ us₂, annotateSents anno s e mid ss₂ = .ok us₂ ∧ sentsKeyEq us₁ us₂ := by
  intro ss₁ ss₂ us₁ hk
  induction hk generalizing us₁ with
  | nil =>
    intro h
    unfold annotateSents at h
    cases h
    exact ⟨[], rfl, List.Forall₂.nil⟩
  | @cons s₁ s₂ ss₁ ss₂ hsent hrest ih =>
    intro h
    unfold annotateSents at h
    cases ht : annotateToks anno s e mid s₁ with
    | error err => rw [ht] at h; cases h
    | ok u₁ =>
      simp only [ht] at h
      cases hts : annotateSents anno s e mid ss₁ with
      | error err => simp only [hts] at h; cases h
      | ok us =>
        simp only [hts] at h
        cases h
        obtain ⟨u₂, hu₂, hu₂k⟩ := annotateToks_transfer hsent ht
        obtain ⟨us₂, hus₂, hus₂k⟩ := ih hts
        refine ⟨u₂ :: us₂, ?_, List.Forall₂.cons hu₂k hus₂k⟩
        unfold annotateSents
        rw [hu₂, hus₂]

theorem stepAnno_transfer {text : List Char}
    {sents₁ sents₂ s₁' : List (List Token)} {mid m' : Nat} {anno : Anno}
    {lg : List LogEvent} (hk : sentsKeyEq sents₁ sents₂)
    (h : stepAnno text sents₁ mid anno = .ok (s₁', m', lg)) :
    ∃ s₂', stepAnno text sents₂ mid anno = .ok (s₂', m', lg) ∧
      sentsKeyEq s₁' s₂' := by
  unfold stepAnno at h ⊢
  cases hE : isEntityTruthy anno with
  | false =>
    rw [hE] at h
    simp only [Bool.false_eq_true, if_false] at h ⊢
    cases h
    exact ⟨sents₂, rfl, hk⟩
  | true =>
    rw [hE] at h
    simp only [if_true] at h ⊢
    cases hs : anno.start? with
    | none => simp only [hs] at h; cases h
    | some s =>
      simp only [hs] at h ⊢
      cases he : anno.stop? with
      | none => simp only [he] at h; cases h
      | some e =>
        simp only [he] at h ⊢
        cases hmt : anno.matchText? with
        | none => simp only [hmt] at h; cases h
        | some mt =>
          simp only [hmt] at h ⊢
          cases hA : annotateSents anno s e mid sents₁ with
          | error err => simp only [hA] at h; cases h
          | ok sents' =>
            simp only [hA] at h
            cases h
            obtain ⟨s₂', hA₂, hk'⟩ := annotateSents_transfer hk hA
            simp only [hA₂]
            exact ⟨s₂', rfl, hk'⟩

theorem alignLoop_transfer {text : List Char} :
    ∀ (annos : List Anno) {sents₁ sents₂ o₁ : List (List Token)} {mid m₁ : Nat}
      {l₁ : List LogEvent},
      sentsKeyEq sents₁ sents₂ →
      alignLoop text annos sents₁ mid = .ok (o₁, m₁, l₁) →
      ∃ o₂, alignLoop text annos sents₂ mid = .ok (o₂, m₁, l₁) ∧
        sentsKeyEq o₁ o₂
  | [], sents₁, sents₂, o₁, mid, m₁, l₁, hk, h => by
    unfold alignLoop at h
    cases h
    exact ⟨sents₂, rfl, hk⟩
  | anno :: rest, sents₁, sents₂, o₁, mid, m₁, l₁, hk, h => by
    unfold alignLoop at h
    cases hS : stepAnno text sents₁ mid anno with
    | error err => rw [hS] at h; cases h
    | ok trip =>
      obtain ⟨s₁', m', lg⟩ := trip
      simp only [hS] at h
      cases hL : alignLoop text rest s₁' m' with
      | error err => simp only [hL] at h; cases h
      | ok trip' =>
        obtain ⟨o₁', m₁', lg'⟩ := trip'
        simp only [hL] at h
        cases h
        obtain ⟨s₂', hS₂, hk'⟩ := stepAnno_transfer hk hS
        obtain ⟨o₂, hL₂, hk''⟩ := alignLoop_transfer rest hk' hL
        refine ⟨o₂, ?_, hk''⟩
        unfold alignLoop
        rw [hS₂]
        simp only [hL₂]

theorem forall₂_key_map {f : Token → Token}
    (hf : ∀ t, tokKey (f t) = tokKey t) :
    ∀ ts : List Token,
      List.Forall₂ (fun t t' => tokKey t' = tokKey t) ts (ts.map f)
  | [] => List.Forall₂.nil
  | t :: ts => List.Forall₂.cons (hf t) (forall₂_key_map hf ts)

theorem sentsKeyEq_map {f : Token → Token}
    (hf : ∀ t, tokKey (f t) = tokKey t) :
    ∀ sents : List (List Token), sentsKeyEq sents (sents.map (List.map f))
  | [] => List.Forall₂.nil
  | sent :: ss => List.Forall₂.cons (forall₂_key_map hf sent) (sentsKeyEq_map hf ss)

/-! ### Further helper lemmas for the claim theorems -/

theorem map_toks_ext (F G : Token → Token) (h : ∀ t, F t = G t) :
    ∀ ts : List Token, ts.map F = ts.map G
  | [] => rfl
  | t :: ts => by rw [List.map_cons, List.map_cons, h t, map_toks_ext F G h ts]

theorem map_sents_ext (F G : Token → Token) (h : ∀ t, F t = G t) :
    ∀ sents : List (List Token),
      sents.map (List.map F) = sents.map (List.map G)
  | [] => rfl
  | sent :: ss => by
    rw [List.map_cons, List.map_cons, map_toks_ext F G h sent,
        map_sents_ext F G h ss]

theorem map_toks_id (F : Token → Token) (h : ∀ t, F t = t) :
    ∀ ts : List Token, ts.map F = ts
  | [] => rfl
  | t :: ts => by rw [List.map_cons, h t, map_toks_id F h ts]

theorem map_sents_id (F : Token → Token) (h : ∀ t, F t = t) :
    ∀ sents : List (List Token), sents.map (List.map F) = sents
  | [] => rfl
  | sent :: ss => by
    rw [List.map_cons, map_toks_id F h sent, map_sents_id F h ss]

theorem tokStep_resolve_none {anno : Anno} {f : Features} {hier : String}
    (hf : anno.features? = some f) (hh : f.hierarchy = some hier)
    (hr : resolve_types hier = none) (mid : Nat) (tok : Token) :
    tokStep mid anno tok = tok := by
  unfold tokStep
  cases hE : isEntityTruthy anno with
  | false => simp
  | true =>
    simp only [if_true]
    cases hs : anno.start? with
    | none => simp
    | some s =>
      cases he : anno.stop? with
      | none => simp
      | some e =>
        simp only [hf, hh, hr]
        cases find_range_mem s e tok <;> simp

theorem tokStep_resolved {anno : Anno} {s e : Nat} {f : Features}
    {hier : String} {et : EntityType} {mk : MentionType}
    (hE : isEntityTruthy anno = true) (hs : anno.start? = some s)
    (he : anno.stop? = some e) (hf : anno.features? = some f)
    (hh : f.hierarchy = some hier) (hr : resolve_types hier = some (et, mk))
    (mid : Nat) (tok : Token) :
    tokStep mid anno tok =
      if find_range_mem s e tok then applyAnno et mk mid tok else tok := by
  unfold tokStep
  rw [hE]
  simp only [hs, he, hf, hh, hr, if_true]

theorem tokAt_map (f : Token → Token) (sents : List (List Token)) (i j : Nat) :
    tokAt (sents.map (List.map f)) i j = (tokAt sents i j).map f := by
  unfold tokAt
  rw [List.getElem?_map]
  cases h : sents[i]? with
  | none => rfl
  | some sent => simp [List.getElem?_map]

theorem forall₂_map_toks {R : Token → Token → Prop} {F : Token → Token}
    (hR : ∀ t, R t (F t)) :
    ∀ ts : List Token, List.Forall₂ R ts (ts.map F)
  | [] => List.Forall₂.nil
  | t :: ts => List.Forall₂.cons (hR t) (forall₂_map_toks hR ts)

theorem forall₂_map_sents {R : Token → Token → Prop} {F : Token → Token}
    (hR : ∀ t, R t (F t)) :
    ∀ sents : List (List Token),
      List.Forall₂ (List.Forall₂ R) sents (sents.map (List.map F))
  | [] => List.Forall₂.nil
  | sent :: ss =>
    List.Forall₂.cons (forall₂_map_toks hR sent) (forall₂_map_sents hR ss)

theorem alignLoop_nil (text : List Char) (sents : List (List Token))
    (mid : Nat) : alignLoop text [] sents mid = .ok (sents, mid, []) := rfl

theorem alignLoop_cons (text : List Char) (anno : Anno) (rest : List Anno)
    (sents : List (List Token)) (mid : Nat) :
    alignLoop text (anno :: rest) sents mid =
      match stepAnno text sents mid anno with
      | .error e => .error e
      | .ok (sents', mid', logs) =>
        match alignLoop text rest sents' mid' with
        | .error e => .error e
        | .ok (sents'', mid'', logs') => .ok (sents'', mid'', logs ++ logs') :=
  rfl

theorem stepAnno_not_entity {anno : Anno} (hE : isEntityTruthy anno = false)
    (text : List Char) (sents : List (List Token)) (mid : Nat) :
    stepAnno text sents mid anno = .ok (sents, mid, [.debugSkip anno]) := by
  unfold stepAnno
  rw [hE]
  rfl

theorem stepAnno_no_start {anno : Anno} (hE : isEntityTruthy anno = true)
    (hs : anno.start? = none) (text : List Char)
    (sents : List (List Token)) (mid : Nat) :
    stepAnno text sents mid anno = .error (.keyError "start") := by
  unfold stepAnno
  rw [hE]
  simp only [hs, if_true]

/-! ### Claim theorems -/

/-- C1: refuted as stated (code bug). `annotate_sentences` has no `return`
statement, so `process_item` stores Python `None` under
`si.body.sentences['opensextant']`; the sentence sequence with tokens
annotated in place remains only under the `nltk_tokenizer` key. On the
repository's own test fixture (`'Traveling to Paris, Texas.'` with
populated-place annotations over `'Paris'` and `'Texas'`) the stage
succeeds, the taggings entry is added, but the new sentences entry is
`none`, contradicting the claim (and the repository's own test, which
iterates `si.body.sentences['opensextant']`). -/
theorem c1_opensextant_sentences_is_none :
    process_item parisItem { annoList? := some [annoParis, annoTexas] } 42 =
      .ok parisItemTagged ∧
    parisItemTagged.body.map (fun b => b.sentences.lookup "opensextant") =
      some (some none) ∧
    parisItemTagged.body.map (fun b => b.sentences.lookup "nltk_tokenizer") =
      some (some (some [[tokTraveling, tokTo, applyAnno .LOC .NAME 0 tokParis,
                         applyAnno .LOC .NAME 1 tokTexas]])) := by
  refine ⟨rfl, rfl, rfl⟩

/-- C2: refuted as stated (code bug). The table defines the exact entry
`'Person.bodyPart' ↦ None`, but the lookup `if entity_types.get(fhierarchy):`
tests truthiness, so an explicit `None` entry behaves like an absent key and
resolution falls through to the first segment `'Person'`, yielding
`(PER, NAME)` instead of the `None` the claim (and the table's suppression
intent) requires. -/
theorem c2_bodyPart_falls_back_to_person :
    entity_types.lookup "Person.bodyPart" = some none ∧
    resolve_types "Person.bodyPart" = some (.PER, .NAME) := by
  refine ⟨by decide, by decide⟩

/-- C3: counterexample. A lone entity-flagged annotation whose category
`'Object'` resolves to `None` leaves the token untouched but still advances
the per-document mention counter to 1 (`mention_id += 1` sits at the end of
the loop body, after the per-token resolution), so the run cannot have ended
with the counter still at 0 as the claim requires. -/
theorem c3_counter_advances_on_none :
    alignLoop parisText [annoObject] [[tokParis]] 0 =
      .ok ([[tokParis]], 1, []) ∧
    alignLoop parisText [annoObject] [[tokParis]] 0 ≠
      .ok ([[tokParis]], 0, []) := by
  refine ⟨rfl, ?_⟩
  intro h
  rw [show alignLoop parisText [annoObject] [[tokParis]] 0 =
        .ok ([[tokParis]], 1, []) from rfl] at h
  simp at h

/-- C3 (amended): an entity-flagged annotation with all required fields
present whose category resolves to `None` modifies no token, yet the
per-document mention counter still advances by exactly one — the counter
advances once per entity-flagged annotation regardless of resolution. -/
theorem c3_none_resolution_skips_tokens_but_consumes_id
    (text : List Char) (sents : List (List Token)) (mid : Nat) (anno : Anno)
    {s e : Nat} {mt : String} {f : Features} {hier : String}
    (hE : isEntityTruthy anno = true) (hs : anno.start? = some s)
    (he : anno.stop? = some e) (hmt : anno.matchText? = some mt)
    (hf : anno.features? = some f) (hh : f.hierarchy = some hier)
    (hr : resolve_types hier = none) :
    stepAnno text sents mid anno = .ok (sents, mid + 1, stepLogs text anno) := by
  unfold stepAnno stepLogs
  rw [hE]
  simp only [hs, he, hmt, if_true]
  rw [annotateSents_eq hE hs he hf hh mid sents,
      map_sents_id _ (tokStep_resolve_none hf hh hr mid) sents]

/-- C3 (amended) witness: the concrete `'Object'` annotation over `'Paris,'`
leaves the token unchanged while the counter moves from 0 to 1. -/
theorem c3_witness :
    isEntityTruthy annoObject = true ∧
    resolve_types "Object" = none ∧
    stepAnno parisText [[tokParis]] 0 annoObject =
      .ok ([[tokParis]], 1, []) :=
  ⟨by decide, by decide,
   c3_none_resolution_skips_tokens_but_consumes_id parisText [[tokParis]] 0
     annoObject rfl rfl rfl rfl rfl rfl (by decide)⟩

/-- C4: counterexample. An entity-flagged record with no `start` field makes
the whole alignment call fail with `KeyError('start')`: the exception
escapes `annotate_sentences`, and the following well-formed annotation
(`annoTexas`) is never processed — contrary to the claim that only that one
annotation's processing fails and no exception escapes. -/
theorem c4_missing_start_aborts :
    annotate_sentences parisText parisSents
      { annoList? := some [annoNoStart, annoTexas] } =
      .error (.keyError "start") := rfl

/-- C4 (amended): a malformed annotation record (entity-flagged but lacking
the required `start` field) raises an uncaught `KeyError` that aborts the
entire document's alignment; the remaining annotations are not processed. -/
theorem c4_missing_start_raises (text : List Char)
    (sents : List (List Token)) (anno : Anno) (rest : List Anno)
    (hE : isEntityTruthy anno = true) (hs : anno.start? = none) :
    annotate_sentences text sents { annoList? := some (anno :: rest) } =
      .error (.keyError "start") := by
  have h1 : alignLoop text (anno :: rest) sents 0 =
      .error (.keyError "start") := by
    rw [alignLoop_cons]
    simp only [stepAnno_no_start hE hs]
  unfold annotate_sentences
  simp only [Option.getD_some]
  rw [h1]

/-- C4 (amended) witness: the concrete record without `start` aborts the
fixture document. -/
theorem c4_witness :
    isEntityTruthy annoNoStart = true ∧
    annotate_sentences parisText parisSents
      { annoList? := some [annoNoStart] } = .error (.keyError "start") :=
  ⟨by decide, c4_missing_start_raises parisText parisSents annoNoStart []
     rfl rfl⟩

/-- C10: lenient treatment of missing `annoList`, `features` and `isEntity`
versus strict treatment of missing `start`: a result without `annoList` is
an empty annotation list (tokens unchanged, no error, no log); a record
whose `features` object is absent, whose `isEntity` key is absent, or whose
`isEntity` is `false` fails the truthiness gate and is skipped with only a
debug log, consuming no mention-id and raising nothing; an entity-flagged
record lacking `start` raises `KeyError('start')`. -/
theorem c10_missing_fields :
    (∀ (text : List Char) (sents : List (List Token)),
      annotate_sentences text sents { annoList? := none } = .ok (sents, [])) ∧
    (∀ anno : Anno, anno.features? = none → isEntityTruthy anno = false) ∧
    (∀ (anno : Anno) (f : Features), anno.features? = some f →
      f.isEntity = none → isEntityTruthy anno = false) ∧
    (∀ (anno : Anno) (f : Features), anno.features? = some f →
      f.isEntity = some false → isEntityTruthy anno = false) ∧
    (∀ (text : List Char) (anno : Anno) (rest : List Anno)
       (sents : List (List Token)) (mid : Nat),
      isEntityTruthy anno = false →
      alignLoop text (anno :: rest) sents mid =
        (alignLoop text rest sents mid).map
          (fun out => (out.1, out.2.1, LogEvent.debugSkip anno :: out.2.2))) ∧
    (∀ (text : List Char) (anno : Anno) (rest : List Anno)
       (sents : List (List Token)) (mid : Nat),
      isEntityTruthy anno = true → anno.start? = none →
      alignLoop text (anno :: rest) sents mid = .error (.keyError "start")) := by
  refine ⟨fun text sents => rfl, ?_, ?_, ?_, ?_, ?_⟩
  · intro anno hf
    unfold isEntityTruthy
    rw [hf]
  · intro anno f hf hi
    simp [isEntityTruthy, hf, hi]
  · intro anno f hf hi
    simp [isEntityTruthy, hf, hi]
  · intro text anno rest sents mid hE
    rw [alignLoop_cons]
    simp only [stepAnno_not_entity hE]
    cases hL : alignLoop text rest sents mid with
    | error err => simp only [hL]; rfl
    | ok trip => obtain ⟨s'', m'', lg'⟩ := trip; simp only [hL]; rfl
  · intro text anno rest sents mid hE hs
    rw [alignLoop_cons]
    simp only [stepAnno_no_start hE hs]

/-- C10 witness: concrete instances of each conjunct — a result without
`annoList` leaves the fixture tokens unchanged; a record with no features
object is skipped; an `isEntity: false` record only adds a debug log; a
record without `start` raises. -/
theorem c10_witness :
    annotate_sentences parisText parisSents { annoList? := none } =
      .ok (parisSents, []) ∧
    isEntityTruthy { start? := some 0 } = false ∧
    isEntityTruthy { features? := some { hierarchy := some "Person" } } = false ∧
    isEntityTruthy annoNotEntity = false ∧
    alignLoop parisText [annoNotEntity] parisSents 0 =
      (alignLoop parisText [] parisSents 0).map
        (fun out => (out.1, out.2.1, LogEvent.debugSkip annoNotEntity :: out.2.2)) ∧
    alignLoop parisText [annoNoStart] parisSents 0 =
      .error (.keyError "start") :=
  ⟨c10_missing_fields.1 parisText parisSents,
   c10_missing_fields.2.1 _ rfl,
   c10_missing_fields.2.2.1 _ _ rfl rfl,
   c10_missing_fields.2.2.2.1 _ _ rfl rfl,
   c10_missing_fields.2.2.2.2.1 parisText annoNotEntity [] parisSents 0 (by decide),
   c10_missing_fields.2.2.2.2.2 parisText annoNoStart [] parisSents 0
     (by decide) rfl⟩

/-- C5: for a processed annotation (entity-flagged, required fields present,
category resolving to a pair) the aligner annotates exactly the tokens whose
byte span intersects `[start, end)` — every such token becomes
`applyAnno`-updated and every other token is returned unchanged — and the
membership predicate behaves as the claim requires at the boundaries: a
token whose span equals the annotation's span is annotated, a left neighbor
ending at or before `start` and a right neighbor starting at or after `end`
are not, and a token that starts before `start` but overlaps the span is
annotated. (`find_range_mem` is modelled from the spec, since the
`sortedcollection` dependency is outside this repository's sources.) -/
theorem c5_exact_span_coverage (text : List Char) (sents : List (List Token))
    (mid : Nat) (anno : Anno) (et : EntityType) (mk : MentionType)
    {s e : Nat} {mt : String} {f : Features} {hier : String}
    (hE : isEntityTruthy anno = true) (hs : anno.start? = some s)
    (he : anno.stop? = some e) (hmt : anno.matchText? = some mt)
    (hf : anno.features? = some f) (hh : f.hierarchy = some hier)
    (hr : resolve_types hier = some (et, mk)) :
    (stepAnno text sents mid anno).map (fun out => out.1) =
      .ok (sents.map (List.map (fun tok =>
        if find_range_mem s e tok then applyAnno et mk mid tok else tok))) ∧
    (∀ tok : Token, tok.first = s → tok.first + tok.length = e → s < e →
      find_range_mem s e tok = true) ∧
    (∀ tok : Token, tok.first + tok.length ≤ s →
      find_range_mem s e tok = false) ∧
    (∀ tok : Token, e ≤ tok.first → find_range_mem s e tok = false) ∧
    (∀ tok : Token, tok.first < s → s < tok.first + tok.length → s < e →
      find_range_mem s e tok = true) := by
  refine ⟨?_, ?_, ?_, ?_, ?_⟩
  · have hstep : stepAnno text sents mid anno =
        .ok (sents.map (List.map (tokStep mid anno)), mid + 1,
             stepLogs text anno) := by
      unfold stepAnno stepLogs
      rw [hE]
      simp only [hs, he, hmt, if_true]
      rw [annotateSents_eq hE hs he hf hh mid sents]
    rw [hstep, map_sents_ext _ _ (tokStep_resolved hE hs he hf hh hr mid) sents]
    rfl
  · intro tok h1 h2 h3
    simp only [find_range_mem, decide_eq_true_eq]
    omega
  · intro tok h1
    simp only [find_range_mem, decide_eq_false_iff_not]
    omega
  · intro tok h1
    simp only [find_range_mem, decide_eq_false_iff_not]
    omega
  · intro tok h1 h2 h3
    simp only [find_range_mem, decide_eq_true_eq]
    omega

/-- C5 witness: the annotation whose span [3, 5) equals the span of the
middle token `'CD'` annotates that token only; the neighbors `'AB'`
(ending before the span) and `'EF'` (starting after it) are unchanged. -/
theorem c5_witness :
    isEntityTruthy annoExact = true ∧
    resolve_types "Organization" = some (.ORG, .NAME) ∧
    (stepAnno abText [[tokAB, tokCD, tokEF]] 0 annoExact).map
        (fun out => out.1) =
      .ok [[tokAB, applyAnno .ORG .NAME 0 tokCD, tokEF]] ∧
    find_range_mem 3 5 tokCD = true ∧
    find_range_mem 3 5 tokAB = false ∧
    find_range_mem 3 5 tokEF = false :=
  ⟨by decide, by decide,
   (c5_exact_span_coverage abText [[tokAB, tokCD, tokEF]] 0 annoExact .ORG .NAME
     rfl rfl rfl rfl rfl rfl (by decide)).1,
   (c5_exact_span_coverage abText [[tokAB, tokCD, tokEF]] 0 annoExact .ORG .NAME
     rfl rfl rfl rfl rfl rfl (by decide)).2.1 tokCD rfl rfl (by decide),
   (c5_exact_span_coverage abText [[tokAB, tokCD, tokEF]] 0 annoExact .ORG .NAME
     rfl rfl rfl rfl rfl rfl (by decide)).2.2.1 tokAB (by decide),
   (c5_exact_span_coverage abText [[tokAB, tokCD, tokEF]] 0 annoExact .ORG .NAME
     rfl rfl rfl rfl rfl rfl (by decide)).2.2.2.1 tokEF (by decide)⟩

/-- C6: an offset/matchText mismatch is non-fatal. When the decoded document
slice `text[start:end]` differs from the record's `matchText`, the loop
iteration still succeeds (no exception), emits exactly one critical log
event whose context is the Python slice `text[start-3:end+3]` (three
characters of context on each side), and applies the annotation to the
tokens exactly as it would with the offsets as given. -/
theorem c6_mismatch_logged_nonfatal (text : List Char)
    (sents : List (List Token)) (mid : Nat) (anno : Anno) {s e : Nat}
    {mt : String} {f : Features} {hier : String}
    (hE : isEntityTruthy anno = true) (hs : anno.start? = some s)
    (he : anno.stop? = some e) (hmt : anno.matchText? = some mt)
    (hf : anno.features? = some f) (hh : f.hierarchy = some hier)
    (hmis : (pySliceNat text s e).asString ≠ mt) :
    stepAnno text sents mid anno =
      .ok (sents.map (List.map (tokStep mid anno)), mid + 1,
           [.criticalMismatch
             (pySlice text ((s : Int) - 3) ((e : Int) + 3)).asString mt]) := by
  unfold stepAnno
  rw [hE]
  simp only [hs, he, hmt, if_true]
  rw [annotateSents_eq hE hs he hf hh mid sents, if_neg hmis]

/-- C6 witness: the record claiming `'Paris!'` over [13, 18) (actual text
`'Paris'`) is still applied to `'Paris,'` and produces one critical log
event with the context `'to Paris, T'` (= `text[10:21]`). -/
theorem c6_witness :
    (pySliceNat parisText 13 18).asString ≠ "Paris!" ∧
    stepAnno parisText [[tokParis]] 0 annoMismatch =
      .ok ([[applyAnno .LOC .NAME 0 tokParis]], 1,
           [.criticalMismatch "to Paris, T" "Paris!"]) :=
  ⟨by decide,
   c6_mismatch_logged_nonfatal parisText [[tokParis]] 0 annoMismatch
     rfl rfl rfl rfl rfl rfl (by decide)⟩

/-- C7: frame property of a successful alignment. Token-by-token (the
`Forall₂` pairing keeps the sentence structure), the literal text and byte
span (`tokKey`) are never changed, and a token for which no annotation in
the list is entity-flagged, span-intersecting and non-suppressed
(`effectiveOn` false for all) is returned exactly as it was — in particular
its entity-kind and mention-kind remain unset. -/
theorem c7_aligner_frame (text : List Char) (sents : List (List Token))
    (result : TagResult) {sents' : List (List Token)} {logs : List LogEvent}
    (h : annotate_sentences text sents result = .ok (sents', logs)) :
    List.Forall₂ (List.Forall₂ (fun tok tok' =>
      tokKey tok' = tokKey tok ∧
      ((∀ a ∈ result.annoList?.getD [], effectiveOn a tok = false) →
        tok' = tok))) sents sents' := by
  obtain ⟨h1, -⟩ := annotate_char h
  subst h1
  exact forall₂_map_sents
    (fun t => ⟨tokFold_key _ _ t, fun hall => tokFold_untouched _ _ hall⟩)
    sents

/-- C7 witness: an `isEntity: false` annotation overlapping `'Paris,'`
leaves the token exactly as it was. -/
theorem c7_witness :
    annotate_sentences parisText [[tokParis]]
      { annoList? := some [annoNotEntity] } =
      .ok ([[tokParis]], [.debugSkip annoNotEntity]) ∧
    List.Forall₂ (List.Forall₂ (fun tok tok' =>
      tokKey tok' = tokKey tok ∧
      ((∀ a ∈ ({ annoList? := some [annoNotEntity] } :
          TagResult).annoList?.getD [], effectiveOn a tok = false) →
        tok' = tok))) [[tokParis]] [[tokParis]] :=
  ⟨rfl, c7_aligner_frame parisText [[tokParis]]
     { annoList? := some [annoNotEntity] } rfl⟩

/-- C8: invariants of a successful alignment started from untouched tokens.
(1) Every resulting token is either fully unset or has entity-kind and
mention-kind set with `mention_id = equiv_id`. (2) A token covered by
exactly one effective annotation `a0` (no other annotation in the list
touches it) ends up carrying exactly the Type-Mapper resolution of `a0`'s
category, with mention-id and equiv-id both equal to the number of
entity-flagged annotations before `a0`. (3) Hence two tokens annotated by
the same single annotation carry the same mention-id. -/
theorem c8_mention_invariants (text : List Char) (sents : List (List Token))
    (result : TagResult) {sents' : List (List Token)} {logs : List LogEvent}
    (h : annotate_sentences text sents result = .ok (sents', logs))
    (hunset : ∀ sent ∈ sents, ∀ t ∈ sent, isUnset t = true) :
    (∀ sent' ∈ sents', ∀ t' ∈ sent',
      isUnset t' = true ∨
      ∃ er mr k, t'.entity_type = some er ∧ t'.mention_type = some mr ∧
        t'.mention_id = some k ∧ t'.equiv_id = some k) ∧
    (∀ (pre : List Anno) (a0 : Anno) (post : List Anno) (er : EntityType)
       (mr : MentionType), result.annoList?.getD [] = pre ++ a0 :: post →
      annoResolve a0 = some (er, mr) →
      ∀ (i j : Nat) (t : Token), tokAt sents i j = some t →
        effectiveOn a0 t = true →
        (∀ a ∈ pre, effectiveOn a t = false) →
        (∀ a ∈ post, effectiveOn a t = false) →
        tokAt sents' i j = some (applyAnno er mr (entityCount pre) t)) ∧
    (∀ (pre : List Anno) (a0 : Anno) (post : List Anno) (er : EntityType)
       (mr : MentionType), result.annoList?.getD [] = pre ++ a0 :: post →
      annoResolve a0 = some (er, mr) →
      ∀ (i₁ j₁ i₂ j₂ : Nat) (t₁ t₂ u₁ u₂ : Token),
        tokAt sents i₁ j₁ = some t₁ → tokAt sents i₂ j₂ = some t₂ →
        effectiveOn a0 t₁ = true → effectiveOn a0 t₂ = true →
        (∀ a ∈ pre, effectiveOn a t₁ = false) →
        (∀ a ∈ post, effectiveOn a t₁ = false) →
        (∀ a ∈ pre, effectiveOn a t₂ = false) →
        (∀ a ∈ post, effectiveOn a t₂ = false) →
        tokAt sents' i₁ j₁ = some u₁ → tokAt sents' i₂ j₂ = some u₂ →
        u₁.mention_id = u₂.mention_id ∧
        u₁.mention_id = some (entityCount pre)) := by
  obtain ⟨h1, -⟩ := annotate_char h
  subst h1
  have key : ∀ (pre : List Anno) (a0 : Anno) (post : List Anno)
      (er : EntityType) (mr : MentionType),
      result.annoList?.getD [] = pre ++ a0 :: post →
      annoResolve a0 = some (er, mr) →
      ∀ (i j : Nat) (t : Token), tokAt sents i j = some t →
        effectiveOn a0 t = true →
        (∀ a ∈ pre, effectiveOn a t = false) →
        (∀ a ∈ post, effectiveOn a t = false) →
        tokAt (sents.map (List.map (tokFold (result.annoList?.getD []) 0)))
            i j = some (applyAnno er mr (entityCount pre) t) := by
    intro pre a0 post er mr hsplit hres i j t ht heff hpre hpost
    rw [tokAt_map, ht, Option.map_some', hsplit,
        tokFold_unique pre a0 post 0 hpre heff hres hpost, Nat.zero_add]
  refine ⟨?_, key, ?_⟩
  · intro sent' hsent' t' ht'
    rcases List.mem_map.mp hsent' with ⟨sent, hsent, rfl⟩
    rcases List.mem_map.mp ht' with ⟨t, ht, rfl⟩
    rcases tokFold_shape (result.annoList?.getD []) 0 t with hsh | ⟨er, mr, k, hsh⟩
    · left
      rw [hsh]
      exact hunset sent hsent t ht
    · right
      rw [hsh]
      exact ⟨er, mr, k, rfl, rfl, rfl, rfl⟩
  · intro pre a0 post er mr hsplit hres i₁ j₁ i₂ j₂ t₁ t₂ u₁ u₂ ht₁ ht₂
      heff₁ heff₂ hpre₁ hpost₁ hpre₂ hpost₂ hu₁ hu₂
    have k₁ := key pre a0 post er mr hsplit hres i₁ j₁ t₁ ht₁ heff₁ hpre₁ hpost₁
    have k₂ := key pre a0 post er mr hsplit hres i₂ j₂ t₂ ht₂ heff₂ hpre₂ hpost₂
    rw [hu₁] at k₁
    rw [hu₂] at k₂
    rw [Option.some.injEq] at k₁ k₂
    subst k₁ k₂
    exact ⟨rfl, rfl⟩

/-- C8 witness: one annotation spanning both `'AB'` and `'CD'` gives both
tokens the same mention-id 0 and the resolution of `'Organization'`. -/
theorem c8_witness :
    annotate_sentences abText [[tokAB, tokCD]]
      { annoList? := some [annoWide] } =
      .ok ([[applyAnno .ORG .NAME 0 tokAB, applyAnno .ORG .NAME 0 tokCD]],
           []) ∧
    tokAt [[applyAnno .ORG .NAME 0 tokAB, applyAnno .ORG .NAME 0 tokCD]] 0 0 =
      some (applyAnno .ORG .NAME 0 tokAB) ∧
    (applyAnno EntityType.ORG MentionType.NAME 0 tokAB).mention_id =
      (applyAnno EntityType.ORG MentionType.NAME 0 tokCD).mention_id ∧
    (applyAnno EntityType.ORG MentionType.NAME 0 tokAB).mention_id = some 0 :=
  ⟨rfl,
   (c8_mention_invariants abText [[tokAB, tokCD]] { annoList? := some [annoWide] } rfl (by decide)).2.1 [] annoWide [] .ORG .NAME rfl
     (by decide) 0 0 tokAB rfl (by decide) (by simp) (by simp),
   ((c8_mention_invariants abText [[tokAB, tokCD]] { annoList? := some [annoWide] } rfl (by decide)).2.2 [] annoWide [] .ORG .NAME rfl
     (by decide) 0 0 0 1 tokAB tokCD _ _ rfl rfl (by decide) (by decide)
     (by simp) (by simp) (by simp) (by simp) rfl rfl).1,
   ((c8_mention_invariants abText [[tokAB, tokCD]] { annoList? := some [annoWide] } rfl (by decide)).2.2 [] annoWide [] .ORG .NAME rfl
     (by decide) 0 0 0 1 tokAB tokCD _ _ rfl rfl (by decide) (by decide)
     (by simp) (by simp) (by simp) (by simp) rfl rfl).2⟩

/-- C9: the aligner is idempotent. If a run of `annotate_sentences` over a
token structure succeeds, running it again over the already-annotated
structure succeeds, leaves every token in the same final state, and even
emits the same log events: each run restarts the mention counter at 0 and
overwrites fields rather than accumulating. -/
theorem c9_align_idempotent (text : List Char) (sents : List (List Token))
    (result : TagResult) {sents₁ : List (List Token)} {logs : List LogEvent}
    (h : annotate_sentences text sents result = .ok (sents₁, logs)) :
    annotate_sentences text sents₁ result = .ok (sents₁, logs) := by
  unfold annotate_sentences at h ⊢
  cases hL : alignLoop text (result.annoList?.getD []) sents 0 with
  | error err => rw [hL] at h; cases h
  | ok trip =>
    obtain ⟨s', m', lg⟩ := trip
    simp only [hL] at h
    cases h
    have hchar := alignLoop_char _ _ _ hL
    rw [Prod.mk.injEq, Prod.mk.injEq] at hchar
    obtain ⟨h1, -, -⟩ := hchar
    have hkeys : sentsKeyEq sents sents₁ := by
      rw [h1]
      exact sentsKeyEq_map (fun t => tokFold_key _ _ t) sents
    obtain ⟨o₂, hL₂, -⟩ := alignLoop_transfer (result.annoList?.getD []) hkeys hL
    have hchar₂ := alignLoop_char _ _ _ hL₂
    rw [Prod.mk.injEq, Prod.mk.injEq] at hchar₂
    obtain ⟨g1, -, -⟩ := hchar₂
    have ho₂ : o₂ = sents₁ := by
      rw [g1, h1, map_sents_comp _ _ _
        (fun t => tokFold_idem (result.annoList?.getD []) 0 t) sents]
    rw [ho₂] at hL₂
    simp only [hL₂]

/-- C9 witness: re-running the aligner on the already-annotated fixture
tokens reproduces exactly the same annotated tokens (with the same fresh
mention-ids 0 and 1) and the same (empty) log. -/
theorem c9_witness :
    annotate_sentences parisText parisSents
      { annoList? := some [annoParis, annoTexas] } =
      .ok ([[tokTraveling, tokTo, applyAnno .LOC .NAME 0 tokParis,
             applyAnno .LOC .NAME 1 tokTexas]], []) ∧
    annotate_sentences parisText
      [[tokTraveling, tokTo, applyAnno .LOC .NAME 0 tokParis,
        applyAnno .LOC .NAME 1 tokTexas]]
      { annoList? := some [annoParis, annoTexas] } =
      .ok ([[tokTraveling, tokTo, applyAnno .LOC .NAME 0 tokParis,
             applyAnno .LOC .NAME 1 tokTexas]], []) :=
  ⟨rfl, c9_align_idempotent parisText parisSents
     { annoList? := some [annoParis, annoTexas] } rfl⟩

end OpenSextant
